import Mathlib

set_option autoImplicit false

namespace SlintInterpreter

/-- Brush payload, modelling `slint::Brush` as an abstract handle with
decidable equality (its color data is outside this header). -/
structure Brush where
  handle : Nat
deriving DecidableEq, Repr

/-- Image payload, modelling `slint::Image` as an abstract reference-counted
handle with decidable equality. -/
structure Image where
  handle : Nat
deriving DecidableEq, Repr

/-- Modelled from the spec: the Rust payload of `Value` (behind the opaque
`ValueOpaque` of the header) is not under src/. Spec section 3 describes it as a
closed tagged union with variants Void, Number(double), String, Bool,
Brush/Color, Image(handle), Struct, Model-reference; the double payload is kept
as an abstract exact number (`Rat`), the struct payload is the field list, and
the model payload is the backing row sequence. -/
inductive Value where
  | void : Value
  | number : Rat → Value
  | str : String → Value
  | bool : Bool → Value
  | brush : Brush → Value
  | image : Image → Value
  | struct : List (String × Value) → Value
  | model : List Value → Value

/-- The tag alphabet of `Value`, mirroring `Value::Type` (`ValueType`). -/
inductive ValueType where
  | void | number | str | bool | brush | image | struct | model
deriving DecidableEq, Repr

/-- `Value::type()`: the discriminant the variant holds. -/
def Value.type : Value → ValueType
  | .void => .void
  | .number _ => .number
  | .str _ => .str
  | .bool _ => .bool
  | .brush _ => .brush
  | .image _ => .image
  | .struct _ => .struct
  | .model _ => .model

mutual

/-- Modelled from the spec: the Rust function `slint_interpreter_value_eq`
behind `Value::operator==` is not under src/. Spec section 3: equality is
defined only between values of the same variant (cross-variant comparison is
always unequal), comparing the underlying payloads, recursively for struct
fields and model rows. -/
def valueEq : Value → Value → Bool
  | .void, .void => true
  | .number a, .number b => decide (a = b)
  | .str a, .str b => decide (a = b)
  | .bool a, .bool b => decide (a = b)
  | .brush a, .brush b => decide (a = b)
  | .image a, .image b => decide (a = b)
  | .struct a, .struct b => fieldsEq a b
  | .model a, .model b => rowsEq a b
  | _, _ => false

/-- Payload equality for the struct variant: field lists compared entrywise. -/
def fieldsEq : List (String × Value) → List (String × Value) → Bool
  | [], [] => true
  | (k₁, v₁) :: r₁, (k₂, v₂) :: r₂ => decide (k₁ = k₂) && valueEq v₁ v₂ && fieldsEq r₁ r₂
  | _, _ => false

/-- Payload equality for the model variant: row lists compared entrywise. -/
def rowsEq : List Value → List Value → Bool
  | [], [] => true
  | v₁ :: r₁, v₂ :: r₂ => valueEq v₁ v₂ && rowsEq r₁ r₂
  | _, _ => false

end

mutual

theorem valueEq_sound : ∀ (a b : Value), valueEq a b = true → a = b
  | .void, .void, _ => rfl
  | .number _, .number _, h => by
    simp only [valueEq, decide_eq_true_eq] at h; rw [h]
  | .str _, .str _, h => by
    simp only [valueEq, decide_eq_true_eq] at h; rw [h]
  | .bool _, .bool _, h => by
    simp only [valueEq, decide_eq_true_eq] at h; rw [h]
  | .brush _, .brush _, h => by
    simp only [valueEq, decide_eq_true_eq] at h; rw [h]
  | .image _, .image _, h => by
    simp only [valueEq, decide_eq_true_eq] at h; rw [h]
  | .struct a, .struct b, h => by
    simp only [valueEq] at h; rw [fieldsEq_sound a b h]
  | .model a, .model b, h => by
    simp only [valueEq] at h; rw [rowsEq_sound a b h]

theorem fieldsEq_sound : ∀ (a b : List (String × Value)), fieldsEq a b = true → a = b
  | [], [], _ => rfl
  | (k₁, v₁) :: r₁, (k₂, v₂) :: r₂, h => by
    simp only [fieldsEq, Bool.and_eq_true, decide_eq_true_eq] at h
    obtain ⟨⟨hk, hv⟩, hr⟩ := h
    rw [hk, valueEq_sound v₁ v₂ hv, fieldsEq_sound r₁ r₂ hr]

theorem rowsEq_sound : ∀ (a b : List Value), rowsEq a b = true → a = b
  | [], [], _ => rfl
  | v₁ :: r₁, v₂ :: r₂, h => by
    simp only [rowsEq, Bool.and_eq_true] at h
    obtain ⟨hv, hr⟩ := h
    rw [valueEq_sound v₁ v₂ hv, rowsEq_sound r₁ r₂ hr]

end

/-- `Value::to_number()`: some double iff the variant is Number
(header lines 295-302, null-pointer check on the Rust side modelled as the
variant test the spec describes). -/
def Value.to_number : Value → Option Rat
  | .number n => some n
  | _ => none

/-- `Value::to_string()`: some string iff the variant is String. -/
def Value.to_string : Value → Option String
  | .str s => some s
  | _ => none

/-- `Value::to_bool()`: some bool iff the variant is Bool. -/
def Value.to_bool : Value → Option Bool
  | .bool b => some b
  | _ => none

/-- `Value::to_brush()`: some brush iff the variant is Brush. -/
def Value.to_brush : Value → Option Brush
  | .brush b => some b
  | _ => none

/-- `Value::to_image()`: some image iff the variant is Image. -/
def Value.to_image : Value → Option Image
  | .image i => some i
  | _ => none

/-- Modelled from the spec: `slint_interpreter_value_to_array` (Rust, not under
src/) serializes all elements of a held model into a concrete vector at call
time; any other variant yields the empty optional (header lines 422-431). -/
def Value.to_array : Value → Option (List Value)
  | .model rows => some rows
  | _ => none

/-- The `Struct` binding class: its opaque payload is the field collection. -/
structure Struct where
  fields : List (String × Value)

/-- `Struct()`: constructs a new empty struct. -/
def Struct.empty : Struct := ⟨[]⟩

/-- `Value::to_struct()`: some struct iff the variant is Struct. -/
def Value.to_struct : Value → Option Struct
  | .struct fs => some ⟨fs⟩
  | _ => none

/-- `Value::Value(const Struct &)`: wraps a struct payload. -/
def Value.ofStruct (s : Struct) : Value := .struct s.fields

/-- `Value::Value(const SharedVector<Value> &)`: wraps a vector as an array
model. -/
def Value.ofArray (rows : List Value) : Value := .model rows

/-- Modelled from the spec: the Rust `slint_interpreter_struct_get_field`
behind `Struct::get_field` is not under src/. Spec section 3/4.1: O(lookup)
by name, case-sensitive exact-name match, empty optional for an unknown name,
the current value returned by copy. -/
def Struct.get_field (s : Struct) (name : String) : Option Value :=
  (s.fields.find? (fun p => p.1 == name)).map Prod.snd

/-- Modelled from the spec: the Rust `slint_interpreter_struct_set_field`
behind `Struct::set_field` is not under src/. Spec section 3: setting an
absent name inserts it, setting a present name replaces its value in place. -/
def setFieldList : List (String × Value) → String → Value → List (String × Value)
  | [], name, v => [(name, v)]
  | (k, w) :: rest, name, v =>
    if k == name then (k, v) :: rest else (k, w) :: setFieldList rest name v

/-- `Struct::set_field(name, value)` on the field collection. -/
def Struct.set_field (s : Struct) (name : String) (v : Value) : Struct :=
  ⟨setFieldList s.fields name v⟩

/-- The field names currently present in a struct. -/
def Struct.keys (s : Struct) : List String := s.fields.map Prod.fst

/-- Applying a whole sequence of `set_field` operations in order. -/
def Struct.applyFields (s : Struct) (ops : List (String × Value)) : Struct :=
  ops.foldl (fun t p => t.set_field p.1 p.2) s

/-- The value written by the last operation of `ops` whose key is `k`. -/
def lastWrite (ops : List (String × Value)) (k : String) : Option Value :=
  (ops.reverse.find? (fun p => p.1 == k)).map Prod.snd

theorem getField_set_same (l : List (String × Value)) (k : String) (v : Value) :
    ((setFieldList l k v).find? (fun p => p.1 == k)).map Prod.snd = some v := by
  induction l with
  | nil => simp [setFieldList]
  | cons p rest ih =>
    obtain ⟨k₀, w⟩ := p
    by_cases h : k₀ = k
    · subst h
      simp [setFieldList]
    · simp only [setFieldList, beq_iff_eq, if_neg h]
      rw [List.find?_cons_of_neg _ (by simpa using h)]
      exact ih

theorem find_set_other (l : List (String × Value)) (k k' : String) (v : Value)
    (h : k' ≠ k) :
    (setFieldList l k v).find? (fun p => p.1 == k') = l.find? (fun p => p.1 == k') := by
  induction l with
  | nil =>
    simp [setFieldList, List.find?_cons_of_neg, Ne.symm h]
  | cons p rest ih =>
    obtain ⟨k₀, w⟩ := p
    by_cases h₀ : k₀ = k
    · subst h₀
      have hset : setFieldList ((k₀, w) :: rest) k₀ v = (k₀, v) :: rest := by
        simp [setFieldList]
      rw [hset, List.find?_cons_of_neg _ (by simpa using Ne.symm h),
          List.find?_cons_of_neg _ (by simpa using Ne.symm h)]
    · simp only [setFieldList, beq_iff_eq, if_neg h₀]
      by_cases h₁ : k₀ = k'
      · subst h₁
        rw [List.find?_cons_of_pos _ (by simp), List.find?_cons_of_pos _ (by simp)]
      · rw [List.find?_cons_of_neg _ (by simpa using h₁),
            List.find?_cons_of_neg _ (by simpa using h₁)]
        exact ih

theorem keys_set (l : List (String × Value)) (k : String) (v : Value) :
    (setFieldList l k v).map Prod.fst =
      if k ∈ l.map Prod.fst then l.map Prod.fst else l.map Prod.fst ++ [k] := by
  induction l with
  | nil => simp [setFieldList]
  | cons p rest ih =>
    obtain ⟨k₀, w⟩ := p
    by_cases h : k₀ = k
    · subst h
      simp [setFieldList]
    · simp only [setFieldList, beq_iff_eq, if_neg h, List.map_cons]
      rw [ih]
      by_cases hm : k ∈ rest.map Prod.fst
      · simp [hm, Ne.symm h]
      · simp [hm, Ne.symm h]

theorem applyFields_get (s : Struct) (ops : List (String × Value)) (k : String) :
    (s.applyFields ops).get_field k =
      match lastWrite ops k with
      | some v => some v
      | none => s.get_field k := by
  induction ops generalizing s with
  | nil => simp [Struct.applyFields, lastWrite]
  | cons p ops ih =>
    have hstep : s.applyFields (p :: ops) = (s.set_field p.1 p.2).applyFields ops := by
      simp [Struct.applyFields]
    rw [hstep, ih]
    have hrev : (p :: ops).reverse = ops.reverse ++ [p] := by simp
    cases hfind : ops.reverse.find? (fun q => q.1 == k) with
    | some q =>
      have h₁ : lastWrite ops k = some q.2 := by simp [lastWrite, hfind]
      have h₂ : lastWrite (p :: ops) k = some q.2 := by
        simp [lastWrite, hrev, hfind]
      rw [h₁, h₂]
    | none =>
      have h₁ : lastWrite ops k = none := by simp [lastWrite, hfind]
      rw [h₁]
      by_cases hk : p.1 = k
      · have h₂ : lastWrite (p :: ops) k = some p.2 := by
          simp [lastWrite, hrev, hfind, hk]
        rw [h₂]
        show (s.set_field p.1 p.2).get_field k = some p.2
        have h₃ := getField_set_same s.fields p.1 p.2
        rw [hk] at h₃
        simp only [Struct.get_field, Struct.set_field]
        rw [hk]
        exact h₃
      · have h₂ : lastWrite (p :: ops) k = none := by
          simp [lastWrite, hrev, hfind, hk]
        rw [h₂]
        show (s.set_field p.1 p.2).get_field k = s.get_field k
        simp only [Struct.get_field, Struct.set_field]
        rw [find_set_other s.fields p.1 k p.2 (Ne.symm hk)]

/-- C3: for every supported host datum of each Value variant (number, string,
bool, brush, image, struct), constructing a Value from it and applying the
matching extractor yields exactly that datum back: encode-then-decode is the
identity per variant. -/
theorem claim_C3_value_roundtrip (n : Rat) (s : String) (b : Bool)
    (br : Brush) (im : Image) (st : Struct) :
    (Value.number n).to_number = some n
  ∧ (Value.str s).to_string = some s
  ∧ (Value.bool b).to_bool = some b
  ∧ (Value.brush br).to_brush = some br
  ∧ (Value.image im).to_image = some im
  ∧ (Value.ofStruct st).to_struct = some st :=
  ⟨rfl, rfl, rfl, rfl, rfl, by cases st; rfl⟩

/-- C4: every extractor returns the empty optional (and signals nothing else)
whenever the stored variant does not match the requested shape, and `to_array`
on a value holding a model returns the serialized snapshot of all the model's
rows. -/
theorem claim_C4_extract_mismatch (v : Value) :
    (v.type ≠ .number → v.to_number = none)
  ∧ (v.type ≠ .str → v.to_string = none)
  ∧ (v.type ≠ .bool → v.to_bool = none)
  ∧ (v.type ≠ .struct → v.to_struct = none)
  ∧ (v.type ≠ .image → v.to_image = none)
  ∧ (v.type ≠ .brush → v.to_brush = none)
  ∧ (v.type ≠ .model → v.to_array = none)
  ∧ (∀ rows, v = .model rows → v.to_array = some rows) := by
  cases v <;>
    simp [Value.type, Value.to_number, Value.to_string, Value.to_bool,
      Value.to_struct, Value.to_image, Value.to_brush, Value.to_array]

/-- Concrete instantiation of C4: a string value extracted as a number gives
the empty optional, and a model value serializes to its rows. -/
theorem claim_C4_witness :
    (Value.str "x").to_number = none
  ∧ (Value.model [Value.number 1]).to_array = some [Value.number 1] :=
  ⟨(claim_C4_extract_mismatch (Value.str "x")).1 (by decide),
   (claim_C4_extract_mismatch (Value.model [Value.number 1])).2.2.2.2.2.2.2
     [Value.number 1] rfl⟩

/-- C5: for every Struct, `set_field` then `get_field` on the same name
returns exactly the set value; `get_field` on a name never inserted returns
the empty optional; lookup is exact-name match (hence case-sensitive), so
setting one name leaves every other name's lookup unchanged; `set_field` on a
present name replaces the value without adding a duplicate (the key list is
unchanged; an absent name is appended exactly once); and over any sequence of
insertions and overwrites, lookup returns the value of the last write to that
name. -/
theorem claim_C5_struct_set_get (s : Struct) (k k' : String) (v : Value)
    (ops : List (String × Value)) :
    ((s.set_field k v).get_field k = some v)
  ∧ (k' ∉ s.keys → s.get_field k' = none)
  ∧ (k' ≠ k → (s.set_field k v).get_field k' = s.get_field k')
  ∧ ((s.set_field k v).keys = if k ∈ s.keys then s.keys else s.keys ++ [k])
  ∧ ((s.applyFields ops).get_field k =
      match lastWrite ops k with
      | some w => some w
      | none => s.get_field k) := by
  refine ⟨?_, ?_, ?_, ?_, applyFields_get s ops k⟩
  · simp only [Struct.get_field, Struct.set_field]
    exact getField_set_same s.fields k v
  · intro hk
    simp only [Struct.keys] at hk
    simp only [Struct.get_field]
    have hnone : s.fields.find? (fun p => p.1 == k') = none := by
      rw [List.find?_eq_none]
      intro x hx
      simp only [beq_iff_eq]
      intro hEq
      exact hk (hEq ▸ List.mem_map_of_mem Prod.fst hx)
    rw [hnone]
    rfl
  · intro hne
    simp only [Struct.get_field, Struct.set_field]
    rw [find_set_other s.fields k k' v hne]
  · simp only [Struct.keys, Struct.set_field]
    exact keys_set s.fields k v

/-- Concrete instantiation of C5: setting "Hello" stores the value under
exactly that name, while the differently-cased "hello" stays absent. -/
theorem claim_C5_witness :
    (Struct.empty.set_field "Hello" (Value.number 1)).get_field "Hello"
        = some (Value.number 1)
  ∧ Struct.empty.get_field "hello" = none
  ∧ (Struct.empty.set_field "Hello" (Value.number 1)).get_field "hello"
        = Struct.empty.get_field "hello" := by
  obtain ⟨h₁, h₂, h₃, -, -⟩ :=
    claim_C5_struct_set_get Struct.empty "Hello" "hello" (Value.number 1) []
  exact ⟨h₁, h₂ (by decide), h₃ (by decide)⟩

/-- C7: `operator==` on two Values is true only when both hold the same
variant and equal underlying payloads (it implies the values are equal as
tagged unions), and whenever the two variants differ the comparison is false. -/
theorem claim_C7_value_equality (a b : Value) :
    (valueEq a b = true → a.type = b.type ∧ a = b)
  ∧ (a.type ≠ b.type → valueEq a b = false) := by
  constructor
  · intro h
    have hEq := valueEq_sound a b h
    exact ⟨congrArg Value.type hEq, hEq⟩
  · intro hne
    cases hval : valueEq a b with
    | false => rfl
    | true => exact absurd (congrArg Value.type (valueEq_sound a b hval)) hne

/-- Concrete instantiation of C7: a number and a bool never compare equal. -/
theorem claim_C7_witness :
    valueEq (Value.number 1) (Value.bool true) = false :=
  (claim_C7_value_equality (Value.number 1) (Value.bool true)).2 (by decide)

/-- Generic name lookup used by the engine tables: `find?` by exact key
equals none exactly when the key is absent from the key column. -/
theorem find_name_eq_none {α : Type} (l : List (String × α)) (k : String) :
    l.find? (fun p => p.1 == k) = none ↔ k ∉ l.map Prod.fst := by
  rw [List.find?_eq_none]
  constructor
  · intro h hmem
    obtain ⟨p, hp, hpk⟩ := List.mem_map.mp hmem
    have hne := h p hp
    simp only [beq_iff_eq] at hne
    exact hne hpk
  · intro h p hp
    simp only [beq_iff_eq]
    intro hpk
    exact h (hpk ▸ List.mem_map_of_mem Prod.fst hp)

/-- Modelled from the spec: the engine-side property table behind a running
`ComponentInstance` (Rust, not under src/). Spec sections 3/4.3: an instance
carries the declared public properties (name, declared type, current value)
and the declared callbacks (name, argument signature, current handler). -/
structure ComponentInstance where
  props : List (String × ValueType × Value)
  callbacks : List (String × List ValueType × (List Value → Value))

/-- The names of `properties()` declared by the instance's definition. -/
def ComponentInstance.propertyNames (inst : ComponentInstance) : List String :=
  inst.props.map Prod.fst

/-- The declared type of a public property, when the name is declared. -/
def ComponentInstance.declaredType (inst : ComponentInstance) (name : String) :
    Option ValueType :=
  (inst.props.find? (fun p => p.1 == name)).map (fun p => p.2.1)

/-- The names of `callbacks()` declared by the instance's definition. -/
def ComponentInstance.callbackNames (inst : ComponentInstance) : List String :=
  inst.callbacks.map Prod.fst

/-- Replaces the current value of the first property entry with the given
name, keeping its declared type; leaves every other entry unchanged. -/
def setPropList : List (String × ValueType × Value) → String → Value →
    List (String × ValueType × Value)
  | [], _, _ => []
  | (k, ty, w) :: rest, name, v =>
    if k == name then (k, ty, v) :: rest else (k, ty, w) :: setPropList rest name v

/-- Modelled from the spec: the Rust
`slint_interpreter_component_instance_set_property` behind
`ComponentInstance::set_property` (header lines 601-606) is not under src/.
Spec section 4.3: returns false iff the name is not a declared public property
or the value's variant is incompatible with the property's declared type;
returns true exactly when the value was accepted and stored. -/
def ComponentInstance.set_property (inst : ComponentInstance) (name : String)
    (v : Value) : Bool × ComponentInstance :=
  match inst.props.find? (fun p => p.1 == name) with
  | none => (false, inst)
  | some (_, ty, _) =>
    if v.type = ty then
      (true, { inst with props := setPropList inst.props name v })
    else
      (false, inst)

/-- Modelled from the spec: the Rust
`slint_interpreter_component_instance_get_property` behind
`ComponentInstance::get_property` (header lines 608-618) is not under src/.
Spec section 4.3: empty optional iff the name does not exist, otherwise the
current value returned by copy. -/
def ComponentInstance.get_property (inst : ComponentInstance) (name : String) :
    Option Value :=
  (inst.props.find? (fun p => p.1 == name)).map (fun p => p.2.2)

/-- Whether a supplied argument list is compatible with a declared callback
signature: the count matches and each argument's variant matches the declared
parameter type. -/
def argsCompatible (sig : List ValueType) (args : List Value) : Bool :=
  decide (args.map Value.type = sig)

/-- Modelled from the spec: the Rust
`slint_interpreter_component_instance_invoke_callback` behind
`ComponentInstance::invoke_callback` (header lines 634-647) is not under
src/. Spec section 4.3: empty optional iff the callback does not exist or the
supplied argument count/types are incompatible with its declared signature;
otherwise the callback's result (possibly the void variant). -/
def ComponentInstance.invoke_callback (inst : ComponentInstance) (name : String)
    (args : List Value) : Option Value :=
  match inst.callbacks.find? (fun c => c.1 == name) with
  | none => none
  | some (_, sig, handler) =>
    if argsCompatible sig args then some (handler args) else none

theorem find_setPropList_same (l : List (String × ValueType × Value))
    (k : String) (v : Value) (h : (l.find? (fun p => p.1 == k)).isSome) :
    ((setPropList l k v).find? (fun p => p.1 == k)).map (fun p => p.2.2) = some v := by
  induction l with
  | nil => simp [List.find?] at h
  | cons p rest ih =>
    obtain ⟨k₀, ty, w⟩ := p
    by_cases hk : k₀ = k
    · subst hk
      have hset : setPropList ((k₀, ty, w) :: rest) k₀ v = (k₀, ty, v) :: rest := by
        simp [setPropList]
      rw [hset, List.find?_cons_of_pos _ (by simp)]
      rfl
    · have hset : setPropList ((k₀, ty, w) :: rest) k v
          = (k₀, ty, w) :: setPropList rest k v := by
        simp [setPropList, hk]
      rw [List.find?_cons_of_neg _ (by simpa using hk)] at h
      rw [hset, List.find?_cons_of_neg _ (by simpa using hk)]
      exact ih h

/-- C1: `set_property` returns false exactly when the name is not a declared
public property or the value's variant is incompatible with the declared
type, and true exactly when the value was accepted; after a successful
`set_property(name, v)`, `get_property(name)` returns some v (in particular a
value type-compatible with v); `get_property` returns the empty optional
exactly on non-existent names; a failed `set_property` leaves the instance
unchanged. -/
theorem claim_C1_property_access (inst : ComponentInstance) (name : String)
    (v : Value) :
    (name ∉ inst.propertyNames →
        inst.set_property name v = (false, inst))
  ∧ (∀ ty, inst.declaredType name = some ty → v.type ≠ ty →
        inst.set_property name v = (false, inst))
  ∧ ((inst.set_property name v).1 = true ↔ inst.declaredType name = some v.type)
  ∧ ((inst.set_property name v).1 = true →
        (inst.set_property name v).2.get_property name = some v)
  ∧ (inst.get_property name = none ↔ name ∉ inst.propertyNames) := by
  refine ⟨?_, ?_, ?_, ?_, ?_⟩
  · intro hmem
    have hfind : inst.props.find? (fun p => p.1 == name) = none :=
      (find_name_eq_none inst.props name).mpr hmem
    simp [ComponentInstance.set_property, hfind]
  · intro ty hty hne
    cases hfind : inst.props.find? (fun p => p.1 == name) with
    | none => simp [ComponentInstance.set_property, hfind]
    | some q =>
      obtain ⟨k₀, ty₀, w⟩ := q
      have : ty₀ = ty := by
        simp only [ComponentInstance.declaredType, hfind, Option.map_some] at hty
        exact Option.some.inj hty
      subst this
      simp [ComponentInstance.set_property, hfind, hne]
  · cases hfind : inst.props.find? (fun p => p.1 == name) with
    | none =>
      simp [ComponentInstance.set_property, ComponentInstance.declaredType, hfind]
    | some q =>
      obtain ⟨k₀, ty₀, w⟩ := q
      by_cases hty : v.type = ty₀
      · simp [ComponentInstance.set_property, ComponentInstance.declaredType,
          hfind, hty]
      · simp [ComponentInstance.set_property, ComponentInstance.declaredType,
          hfind, hty, Ne.symm hty]
  · intro hok
    cases hfind : inst.props.find? (fun p => p.1 == name) with
    | none => simp [ComponentInstance.set_property, hfind] at hok
    | some q =>
      obtain ⟨k₀, ty₀, w⟩ := q
      by_cases hty : v.type = ty₀
      · simp only [ComponentInstance.set_property, hfind, if_pos hty]
        simp only [ComponentInstance.get_property]
        exact find_setPropList_same inst.props name v (by simp [hfind])
      · simp [ComponentInstance.set_property, hfind, hty] at hok
  · constructor
    · intro hget
      have : inst.props.find? (fun p => p.1 == name) = none := by
        cases hfind : inst.props.find? (fun p => p.1 == name) with
        | none => rfl
        | some q => simp [ComponentInstance.get_property, hfind] at hget
      exact (find_name_eq_none inst.props name).mp this
    · intro hmem
      have hfind : inst.props.find? (fun p => p.1 == name) = none :=
        (find_name_eq_none inst.props name).mpr hmem
      simp [ComponentInstance.get_property, hfind]

/-- C6: `invoke_callback` on a name absent from the declared callbacks returns
the empty optional regardless of the arguments; on a declared callback it
returns the empty optional when the argument count or types are incompatible
with the declared signature, and otherwise the handler's result. -/
theorem claim_C6_invoke_callback (inst : ComponentInstance) (name : String)
    (args : List Value) :
    (name ∉ inst.callbackNames → inst.invoke_callback name args = none)
  ∧ (∀ k sig handler, inst.callbacks.find? (fun c => c.1 == name)
        = some (k, sig, handler) →
      argsCompatible sig args = false → inst.invoke_callback name args = none)
  ∧ (∀ k sig handler, inst.callbacks.find? (fun c => c.1 == name)
        = some (k, sig, handler) →
      argsCompatible sig args = true →
      inst.invoke_callback name args = some (handler args)) := by
  refine ⟨?_, ?_, ?_⟩
  · intro hmem
    have hfind : inst.callbacks.find? (fun c => c.1 == name) = none :=
      (find_name_eq_none inst.callbacks name).mpr hmem
    simp [ComponentInstance.invoke_callback, hfind]
  · intro k sig handler hfind hbad
    simp [ComponentInstance.invoke_callback, hfind, hbad]
  · intro k sig handler hfind hok
    simp [ComponentInstance.invoke_callback, hfind, hok]

/-- The handler used by the concrete check instance below. -/
def fooHandler : List Value → Value := fun _ => Value.str "ok"

/-- A concrete instance as in the spec's scenario: a `property <string> hello;`
and a `callback foo(string, int) -> string;`. -/
def demoInstance : ComponentInstance :=
  { props := [("hello", (ValueType.str, Value.str ""))],
    callbacks := [("foo", ([ValueType.str, ValueType.number], fooHandler))] }

/-- Concrete instantiation of C1, following the spec scenario: setting a
missing name fails, setting a declared name with an incompatible variant
fails, setting "hello" to the string "world" succeeds and reads back, and
reading a missing name gives the empty optional. -/
theorem claim_C1_witness :
    demoInstance.set_property "missing" (Value.number 1)
        = (false, demoInstance)
  ∧ demoInstance.set_property "hello" (Value.number 1)
        = (false, demoInstance)
  ∧ (demoInstance.set_property "hello" (Value.str "world")).1 = true
  ∧ (demoInstance.set_property "hello" (Value.str "world")).2.get_property "hello"
        = some (Value.str "world")
  ∧ demoInstance.get_property "missing" = none := by
  refine ⟨?_, ?_, ?_, ?_, ?_⟩
  · exact (claim_C1_property_access demoInstance "missing" (Value.number 1)).1
      (by decide)
  · exact (claim_C1_property_access demoInstance "hello" (Value.number 1)).2.1
      ValueType.str rfl (by decide)
  · exact (claim_C1_property_access demoInstance "hello" (Value.str "world")).2.2.1.mpr
      rfl
  · exact (claim_C1_property_access demoInstance "hello" (Value.str "world")).2.2.2.1
      ((claim_C1_property_access demoInstance "hello" (Value.str "world")).2.2.1.mpr
        rfl)
  · exact (claim_C1_property_access demoInstance "missing" (Value.number 1)).2.2.2.2.mpr
      (by decide)

/-- Concrete instantiation of C6, following the spec scenario: invoking an
undeclared callback name gives the empty optional, a declared callback with a
mismatched argument list gives the empty optional, and a compatible call
returns the handler's result. -/
theorem claim_C6_witness :
    demoInstance.invoke_callback "bar" [] = none
  ∧ demoInstance.invoke_callback "foo" [Value.bool true] = none
  ∧ demoInstance.invoke_callback "foo" [Value.str "Hello", Value.number 42]
        = some (Value.str "ok") := by
  refine ⟨?_, ?_, ?_⟩
  · exact (claim_C6_invoke_callback demoInstance "bar" []).1 (by decide)
  · exact (claim_C6_invoke_callback demoInstance "foo" [Value.bool true]).2.1
      "foo" [ValueType.str, ValueType.number] fooHandler rfl (by decide)
  · exact (claim_C6_invoke_callback demoInstance "foo"
      [Value.str "Hello", Value.number 42]).2.2
      "foo" [ValueType.str, ValueType.number] fooHandler rfl (by decide)

/-- Severity of one diagnostic record: at minimum error vs warning. -/
inductive DiagnosticSeverity where
  | error
  | warning
deriving DecidableEq, Repr

/-- One diagnostic record produced by a compiler invocation: severity,
human-readable message and originating source location. -/
structure Diagnostic where
  severity : DiagnosticSeverity
  message : String
  sourceFile : String
  line : Nat
deriving DecidableEq, Repr

/-- A compiled component definition handle. Its introspection surface is not
needed by the compiler-pipeline claim, so it is kept as a reference-counted
handle identity. -/
structure ComponentDefinition where
  id : Nat
deriving DecidableEq, Repr

/-- The `ComponentCompiler` session state: the configuration (include paths
and widget style) plus the diagnostics held from the latest build call. -/
structure ComponentCompiler where
  include_paths : List String
  style : String
  diags : List Diagnostic

/-- What the external markup compiler hands back for one attempt: an optional
definition plus the ordered diagnostics of exactly that attempt. -/
structure CompileOutput where
  result : Option ComponentDefinition
  diags : List Diagnostic

/-- Whether a diagnostics sequence contains a fatal error. -/
def hasFatalError (ds : List Diagnostic) : Bool :=
  ds.any (fun d => d.severity == DiagnosticSeverity.error)

/-- Spec section 6 boundary contract of the external markup compiler: the
definition is present iff the attempt produced zero fatal errors, and a
failed attempt carries at least one diagnostic. -/
def CompileOutput.wellFormed (o : CompileOutput) : Prop :=
  (o.result.isSome = true ↔ hasFatalError o.diags = false)
  ∧ (o.result = none → o.diags ≠ [])

/-- `ComponentCompiler::diagnostics()` (header lines 946-951): the diagnostics
produced in the last build call. -/
def ComponentCompiler.diagnostics (c : ComponentCompiler) : List Diagnostic :=
  c.diags

/-- Modelled from the spec: the Rust
`slint_interpreter_component_compiler_build_from_source` behind
`ComponentCompiler::build_from_source` (header lines 962-974) is not under
src/. Spec section 4.4: the call reads the configuration, performs a single
deterministic compile of the source through the external markup compiler
(taken here as an explicit function of the inputs and configuration),
replaces the held diagnostics with exactly this attempt's diagnostics, and
returns the optional definition. -/
def ComponentCompiler.build_from_source
    (compile : String → String → List String → String → CompileOutput)
    (c : ComponentCompiler) (source_code path : String) :
    ComponentCompiler × Option ComponentDefinition :=
  let out := compile source_code path c.include_paths c.style
  ({ c with diags := out.diags }, out.result)

/-- Modelled from the spec: the Rust
`slint_interpreter_component_compiler_build_from_path` behind
`ComponentCompiler::build_from_path` (header lines 986-996) is not under
src/, with the same reset-and-rebuild contract as `build_from_source`. -/
def ComponentCompiler.build_from_path
    (compileFile : String → List String → String → CompileOutput)
    (c : ComponentCompiler) (path : String) :
    ComponentCompiler × Option ComponentDefinition :=
  let out := compileFile path c.include_paths c.style
  ({ c with diags := out.diags }, out.result)

/-- C2: each build call replaces the held diagnostics with exactly the latest
attempt's records (previously accumulated diagnostics never appear and do not
influence the call); the returned definition is present iff the attempt
produced zero fatal errors; warnings alone do not make the result absent; on
failure the result is the empty optional with a non-empty diagnostics
sequence; and the compiler object remains usable: an immediate rebuild
behaves exactly like the first build. -/
theorem claim_C2_compiler_pipeline
    (compile : String → String → List String → String → CompileOutput)
    (compileFile : String → List String → String → CompileOutput)
    (c : ComponentCompiler) (src path fpath : String)
    (hwf : (compile src path c.include_paths c.style).wellFormed)
    (hwf' : (compileFile fpath c.include_paths c.style).wellFormed) :
    ((c.build_from_source compile src path).1.diagnostics
        = (compile src path c.include_paths c.style).diags)
  ∧ ((c.build_from_path compileFile fpath).1.diagnostics
        = (compileFile fpath c.include_paths c.style).diags)
  ∧ (∀ d₁ d₂ : List Diagnostic,
        ComponentCompiler.build_from_source compile
            { c with diags := d₁ } src path
          = ComponentCompiler.build_from_source compile
            { c with diags := d₂ } src path)
  ∧ ((c.build_from_source compile src path).2.isSome = true
        ↔ hasFatalError (c.build_from_source compile src path).1.diagnostics
            = false)
  ∧ ((c.build_from_path compileFile fpath).2.isSome = true
        ↔ hasFatalError (c.build_from_path compileFile fpath).1.diagnostics
            = false)
  ∧ ((∀ d ∈ (compile src path c.include_paths c.style).diags,
        d.severity = DiagnosticSeverity.warning) →
      (c.build_from_source compile src path).2.isSome = true)
  ∧ ((c.build_from_source compile src path).2 = none →
      (c.build_from_source compile src path).1.diagnostics ≠ [])
  ∧ ((c.build_from_source compile src path).1.build_from_source compile src path
        = c.build_from_source compile src path) := by
  refine ⟨rfl, rfl, fun d₁ d₂ => rfl, hwf.1, hwf'.1, ?_, hwf.2, rfl⟩
  intro hall
  have hnofatal :
      hasFatalError (compile src path c.include_paths c.style).diags = false := by
    simp only [hasFatalError, List.any_eq_false]
    intro d hd
    simp [hall d hd]
  exact hwf.1.mpr hnofatal

/-- A concrete external compile outcome: success with one warning. -/
def okCompile : String → String → List String → String → CompileOutput :=
  fun _ _ _ _ =>
    { result := some ⟨1⟩,
      diags := [⟨DiagnosticSeverity.warning, "deprecated", "app.slint", 3⟩] }

/-- A concrete external compile-from-path outcome: failure with one error. -/
def failCompileFile : String → List String → String → CompileOutput :=
  fun _ _ _ =>
    { result := none,
      diags := [⟨DiagnosticSeverity.error, "unknown component", "b.slint", 1⟩] }

/-- Concrete instantiation of C2: a compiler still holding a stale error
diagnostic rebuilds; afterwards only the new attempt's warning is held, the
definition is present despite the warning, and a failing path build leaves
exactly its own non-empty error diagnostics. -/
theorem claim_C2_witness :
    ((ComponentCompiler.mk [] "native"
        [⟨DiagnosticSeverity.error, "stale", "a.slint", 1⟩]).build_from_source
        okCompile "component A" "app.slint").1.diagnostics
      = [⟨DiagnosticSeverity.warning, "deprecated", "app.slint", 3⟩]
  ∧ ((ComponentCompiler.mk [] "native"
        [⟨DiagnosticSeverity.error, "stale", "a.slint", 1⟩]).build_from_source
        okCompile "component A" "app.slint").2.isSome = true
  ∧ ((ComponentCompiler.mk [] "native"
        [⟨DiagnosticSeverity.error, "stale", "a.slint", 1⟩]).build_from_path
        failCompileFile "b.slint").1.diagnostics
      = [⟨DiagnosticSeverity.error, "unknown component", "b.slint", 1⟩] := by
  have hwf : (okCompile "component A" "app.slint" [] "native").wellFormed :=
    ⟨by decide, by decide⟩
  have hwf' : (failCompileFile "b.slint" [] "native").wellFormed :=
    ⟨by decide, by decide⟩
  have h := claim_C2_compiler_pipeline okCompile failCompileFile
    (ComponentCompiler.mk [] "native"
      [⟨DiagnosticSeverity.error, "stale", "a.slint", 1⟩])
    "component A" "app.slint" "b.slint" hwf hwf'
  exact ⟨h.1, h.2.2.2.1.mpr (by decide), h.2.1⟩

/-- A mutation event reported by the host model to its attached peer: the
four `ModelChangeListener` entry points the `ModelWrapper` overrides
(header lines 445-457). -/
inductive ModelEvent where
  | row_added (index count : Int)
  | row_changed (index : Int)
  | row_removed (index count : Int)
  | reset
deriving DecidableEq, Repr

/-- One engine-side notifier call (`slint_interpreter_model_notify_*`)
recorded with its coordinates. -/
inductive NotifyCall where
  | row_added (index count : Int)
  | row_changed (index : Int)
  | row_removed (index count : Int)
  | reset
deriving DecidableEq, Repr

namespace ModelWrapper

/-- `ModelWrapper::row_added(index, count)` (header lines 445-448): its whole
body is one `slint_interpreter_model_notify_row_added(&notify, index, count)`
call; the list is the sequence of notifier calls the override issues. -/
def row_added (index count : Int) : List NotifyCall :=
  [NotifyCall.row_added index count]

/-- `ModelWrapper::row_changed(index)` (header lines 449-452): one
`slint_interpreter_model_notify_row_changed(&notify, index)` call. -/
def row_changed (index : Int) : List NotifyCall :=
  [NotifyCall.row_changed index]

/-- `ModelWrapper::row_removed(index, count)` (header lines 453-456): one
`slint_interpreter_model_notify_row_removed(&notify, index, count)` call. -/
def row_removed (index count : Int) : List NotifyCall :=
  [NotifyCall.row_removed index count]

/-- `ModelWrapper::reset()` (header line 457): one
`slint_interpreter_model_notify_reset(&notify)` call. -/
def reset : List NotifyCall :=
  [NotifyCall.reset]

/-- Virtual dispatch of one host mutation event to the matching override. -/
def handleEvent : ModelEvent → List NotifyCall
  | .row_added i c => row_added i c
  | .row_changed i => row_changed i
  | .row_removed i c => row_removed i c
  | .reset => reset

end ModelWrapper

/-- The engine notification a host event corresponds to: same kind, same
coordinates. -/
def matchingCall : ModelEvent → NotifyCall
  | .row_added i c => NotifyCall.row_added i c
  | .row_changed i => NotifyCall.row_changed i
  | .row_removed i c => NotifyCall.row_removed i c
  | .reset => NotifyCall.reset

/-- All notifier calls issued while the wrapper processes a sequence of host
events, in order. -/
def forwardEvents (es : List ModelEvent) : List NotifyCall :=
  (es.map ModelWrapper.handleEvent).flatten

/-- C8: each host mutation event makes the wrapper forward exactly one
notification of the same kind with identical coordinates to the engine-side
notifier, and over any sequence of host events the notifications are exactly
the one-for-one images of those events — no notification is forwarded without
a corresponding host event. -/
theorem claim_C8_model_notify (i c : Int) (e : ModelEvent)
    (es : List ModelEvent) :
    ModelWrapper.row_added i c = [NotifyCall.row_added i c]
  ∧ ModelWrapper.row_changed i = [NotifyCall.row_changed i]
  ∧ ModelWrapper.row_removed i c = [NotifyCall.row_removed i c]
  ∧ ModelWrapper.reset = [NotifyCall.reset]
  ∧ ModelWrapper.handleEvent e = [matchingCall e]
  ∧ (ModelWrapper.handleEvent e).length = 1
  ∧ forwardEvents es = es.map matchingCall := by
  have hsingle : ∀ e' : ModelEvent,
      ModelWrapper.handleEvent e' = [matchingCall e'] := by
    intro e'
    cases e' <;> rfl
  refine ⟨rfl, rfl, rfl, rfl, hsingle e, by rw [hsingle e]; rfl, ?_⟩
  induction es with
  | nil => rfl
  | cons e' es ih =>
    simp only [forwardEvents, List.map_cons, List.flatten_cons, hsingle e',
      List.singleton_append, List.map]
    rw [← forwardEvents, ih]

/-- One call into the out-of-scope windowing/event-loop collaborators as the
header issues them: `slint_interpreter_component_instance_show` with its
visibility flag, and `slint_run_event_loop`. -/
inductive EngineCall where
  | instance_show (visible : Bool)
  | run_event_loop
deriving DecidableEq, Repr

/-- The observable windowing state of spec section 6: whether the window is
registered with the windowing system, plus the trace of collaborator calls
issued so far. -/
structure UiState where
  windowVisible : Bool
  trace : List EngineCall
deriving DecidableEq, Repr

/-- Modelled from the spec: `slint_interpreter_component_instance_show`
(Rust, not under src/) registers (true) or de-registers (false) the window
with the windowing system. -/
def instanceShow (visible : Bool) (s : UiState) : UiState :=
  { windowVisible := visible,
    trace := s.trace ++ [EngineCall.instance_show visible] }

/-- Modelled from the spec: `slint_run_event_loop` (the external cooperative
event loop) blocks pumping events until it is externally told to stop; the
window registration is untouched. -/
def runEventLoop (s : UiState) : UiState :=
  { s with trace := s.trace ++ [EngineCall.run_event_loop] }

/-- `ComponentInstance::show()` (header lines 549-552): marks the window
shown by calling `slint_interpreter_component_instance_show(inner, true)`. -/
def ComponentInstance.show (s : UiState) : UiState :=
  instanceShow true s

/-- `ComponentInstance::hide()` (header lines 555-558): marks the window
hidden by calling `slint_interpreter_component_instance_show(inner, false)`. -/
def ComponentInstance.hide (s : UiState) : UiState :=
  instanceShow false s

/-- `ComponentInstance::run()` (header lines 570-575): `show();
slint_run_event_loop(); hide();`. -/
def ComponentInstance.run (s : UiState) : UiState :=
  ComponentInstance.hide (runEventLoop (ComponentInstance.show s))

/-- C9: `run()` is exactly the sequential composition show, then the blocking
external event loop, then hide — its trace appends exactly the registration
call, the loop call and the de-registration call in that order and nothing
else; the window is registered after show, stays registered while the loop
runs, and is hidden when run returns. -/
theorem claim_C9_run_sequence (s : UiState) :
    ComponentInstance.run s
        = ComponentInstance.hide (runEventLoop (ComponentInstance.show s))
  ∧ (ComponentInstance.run s).trace
        = s.trace ++ [EngineCall.instance_show true, EngineCall.run_event_loop,
                      EngineCall.instance_show false]
  ∧ (ComponentInstance.show s).windowVisible = true
  ∧ (runEventLoop (ComponentInstance.show s)).windowVisible = true
  ∧ (ComponentInstance.run s).windowVisible = false := by
  refine ⟨rfl, ?_, rfl, rfl, rfl⟩
  simp [ComponentInstance.run, ComponentInstance.show, ComponentInstance.hide,
    runEventLoop, instanceShow]

/-- `slint_interpreter_value_new` / `Value()` (header line 256): the
default-constructed Value holds the Void variant. -/
def Value.new : Value := Value.void

/-- `Value::Value(Value &&other)` (header lines 261-265): the new object
takes `other`'s payload and `other` is re-initialized with
`slint_interpreter_value_new`; the pair is (constructed object, moved-from
object). -/
def valueMoveConstruct (other : Value) : Value × Value :=
  (other, Value.new)

/-- `Struct::Struct(Struct &&other)` (header lines 65-69): the new struct
takes all fields and `other` is re-initialized to a fresh empty struct. -/
def structMoveConstruct (other : Struct) : Struct × Struct :=
  (other, Struct.empty)

/-- A bank of distinct C++ `Value` objects addressed by index, so aliasing
(`this == &other`) is expressible. `moveAssignValue store i j` performs
`store[i] = std::move(store[j])` (header lines 276-284): the guard returns
immediately on self-assignment; otherwise the target's payload is destroyed
and replaced by the source's, and the source is re-initialized to the
default. -/
def moveAssignValue (store : List Value) (i j : Nat) : List Value :=
  if i = j then store
  else (store.set i (store.getD j Value.new)).set j Value.new

/-- `store[i] = store[j]` by copy (header lines 267-274): the guard returns
immediately on self-assignment; otherwise the target becomes a clone of the
source, which stays untouched. -/
def copyAssignValue (store : List Value) (i j : Nat) : List Value :=
  if i = j then store
  else store.set i (store.getD j Value.new)

/-- `Struct` move assignment over a bank of struct objects (header lines
80-88), with the same self-assignment guard. -/
def moveAssignStruct (store : List Struct) (i j : Nat) : List Struct :=
  if i = j then store
  else (store.set i (store.getD j Struct.empty)).set j Struct.empty

/-- `Struct` copy assignment (header lines 71-78). -/
def copyAssignStruct (store : List Struct) (i j : Nat) : List Struct :=
  if i = j then store
  else store.set i (store.getD j Struct.empty)

/-- C10: moving out of a Value leaves the moved-from object holding the
default Void variant, on which every extractor behaves exactly as on a
freshly default-constructed value; moving out of a Struct leaves a fresh
empty struct on which `get_field` finds nothing; self-assignment (move or
copy, for both types) leaves the object bank unchanged; and a genuine move
assignment leaves the source slot default while the target slot takes the
source's former payload. -/
theorem claim_C10_move_semantics (v : Value) (st : Struct) (k : String)
    (store : List Value) (sstore : List Struct) (i j : Nat) :
    (valueMoveConstruct v = (v, Value.new)
      ∧ (valueMoveConstruct v).2.type = ValueType.void
      ∧ (valueMoveConstruct v).2.to_number = none
      ∧ (valueMoveConstruct v).2.to_string = none
      ∧ (valueMoveConstruct v).2.to_bool = none
      ∧ (valueMoveConstruct v).2.to_struct = none
      ∧ (valueMoveConstruct v).2.to_brush = none
      ∧ (valueMoveConstruct v).2.to_image = none
      ∧ (valueMoveConstruct v).2.to_array = none)
  ∧ (structMoveConstruct st = (st, Struct.empty)
      ∧ (structMoveConstruct st).2.get_field k = none)
  ∧ (moveAssignValue store i i = store
      ∧ copyAssignValue store i i = store
      ∧ moveAssignStruct sstore i i = sstore
      ∧ copyAssignStruct sstore i i = sstore)
  ∧ (i ≠ j → j < store.length →
        (moveAssignValue store i j)[j]? = some Value.new)
  ∧ (i ≠ j → i < store.length →
        (moveAssignValue store i j)[i]? = some (store.getD j Value.new))
  ∧ (i ≠ j → j < sstore.length →
        (moveAssignStruct sstore i j)[j]? = some Struct.empty) := by
  refine ⟨⟨rfl, rfl, rfl, rfl, rfl, rfl, rfl, rfl, rfl⟩, ⟨rfl, rfl⟩,
    ⟨by simp [moveAssignValue], by simp [copyAssignValue],
     by simp [moveAssignStruct], by simp [copyAssignStruct]⟩, ?_, ?_, ?_⟩
  · intro hij hj
    simp only [moveAssignValue, if_neg hij]
    rw [List.getElem?_set_self (by simpa using hj)]
  · intro hij hi
    simp only [moveAssignValue, if_neg hij]
    rw [List.getElem?_set_ne (Ne.symm hij), List.getElem?_set_self hi]
  · intro hij hj
    simp only [moveAssignStruct, if_neg hij]
    rw [List.getElem?_set_self (by simpa using hj)]

/-- Concrete instantiation of C10: in a two-object bank, self-assignment
changes nothing, and moving object 1 into object 0 leaves slot 1 in the
default Void state while slot 0 now holds the string that object 1 held. -/
theorem claim_C10_witness :
    moveAssignValue [Value.number 1, Value.str "a"] 0 0
        = [Value.number 1, Value.str "a"]
  ∧ (moveAssignValue [Value.number 1, Value.str "a"] 0 1)[1]? = some Value.new
  ∧ (moveAssignValue [Value.number 1, Value.str "a"] 0 1)[0]?
        = some (Value.str "a") := by
  obtain ⟨-, -, ⟨hself, -, -, -⟩, hj, hi, -⟩ :=
    claim_C10_move_semantics (Value.number 1) Struct.empty "f"
      [Value.number 1, Value.str "a"] [] 0 1
  refine ⟨hself, hj (by decide) (by decide), ?_⟩
  have := hi (by decide) (by decide)
  simpa using this

end SlintInterpreter
